import Mathlib

/-!
Verification of the exploration-and-fingerprinting engine of the
E2E_Agent repository against its natural-language specification.

The development shallowly embeds the Python sources:
the pure DOM-cleaning and link-discovery utilities and the locator,
categorizer and fingerprint helpers are translated as executable Lean
functions on character lists and strings; the crawl orchestrator
`ExplorerAgent.start_exploration` is translated as a well-founded
recursive function over an explicit crawl state, with the behaviour of
the external collaborators (browser, LLM client, filesystem) supplied
by an environment parameter.
-/

/-- ASCII/Python whitespace characters recognised by the regex class
`\s` and by `str.strip` (space, tab, newline, carriage return,
form feed, vertical tab).  Unicode whitespace is not modelled; none of
the claims exercises it. -/
def isWsChar (c : Char) : Bool :=
  c = ' ' || c = '\t' || c = '\n' || c = '\r' || c = '\x0b' || c = '\x0c'

/-- Python `str.strip()` on a character list: drop whitespace from both
ends. -/
def pyStripL (l : List Char) : List Char :=
  ((l.dropWhile isWsChar).reverse.dropWhile isWsChar).reverse

/-- Python `str.strip()` on strings. -/
def pyStripS (s : String) : String :=
  String.mk (pyStripL s.toList)

/-- One step of the whitespace-collapsing substitution
`re.sub(r"\s+", " ", _)`: a maximal run of whitespace becomes a single
space.  `prevWs` records whether the previously emitted character came
from a whitespace run. -/
def collapseGo (prevWs : Bool) : List Char → List Char
  | [] => []
  | c :: rest =>
    if isWsChar c then
      if prevWs then collapseGo true rest
      else ' ' :: collapseGo true rest
    else c :: collapseGo false rest

/-- `re.sub(r"\s+", " ", l)`. -/
def collapseWs (l : List Char) : List Char :=
  collapseGo false l

/-- Suffix of `l` strictly after the first occurrence of the (nonempty)
literal `cl`, or `none` when `cl` does not occur.  This realises the
lazy tail `[\s\S]*?LIT` of the script/style block patterns: the match
extends to the earliest occurrence of the closing literal. -/
def dropThroughF (cl : List Char) : List Char → Option (List Char)
  | [] => none
  | c :: rest =>
    if cl.isPrefixOf (c :: rest) then some ((c :: rest).drop cl.length)
    else dropThroughF cl rest

/-- `re.sub(op ++ lazy-anything ++ cl, "", l)` for a literal opener and
closer, e.g. `re.sub(r"<script[\s\S]*?</script>", "", l)`.  The scan is
leftmost and non-overlapping, exactly like `re.sub`; an opener with no
later closer matches nothing and is kept.  `fuel` is consumed one unit
per examined position; since every step advances by at least one
character, `fuel = l.length` makes the function total and equal to the
unfuelled scan. -/
def stripBlocksGo (op cl : List Char) : Nat → List Char → List Char
  | 0, l => l
  | _ + 1, [] => []
  | fuel + 1, c :: rest =>
    if op.isPrefixOf (c :: rest) then
      match dropThroughF cl ((c :: rest).drop op.length) with
      | some suffix => stripBlocksGo op cl fuel suffix
      | none => c :: stripBlocksGo op cl fuel rest
    else c :: stripBlocksGo op cl fuel rest

/-- Strip all `op …lazy… cl` blocks from `l`. -/
def stripBlocks (op cl : List Char) (l : List Char) : List Char :=
  stripBlocksGo op cl l.length l

/-- The alternation `(meta|link|base|br|hr)` of the void-tag pattern,
in the source order of the alternatives (Python tries them left to
right). -/
def voidTagWords : List (List Char) :=
  ["meta".toList, "link".toList, "base".toList, "br".toList, "hr".toList]

/-- Match the opener `<(meta|link|base|br|hr)` of the void-tag pattern
at the head of `l`; on success return the remainder after the tag word.
As in the regex, no word boundary is required after the tag word
(`<metal x>` is matched). -/
def matchVoidOpen : List Char → Option (List Char)
  | '<' :: rest =>
    voidTagWords.findSome? fun w =>
      if w.isPrefixOf rest then some (rest.drop w.length) else none
  | _ => none

/-- `re.sub(r"<(meta|link|base|br|hr)\s*[^>]*?/?>", "", l)`.  After the
opener, `\s*[^>]*?/?>` matches exactly the text up to and including the
first following `>`; with no `>` the position does not match.  Fuelled
like `stripBlocksGo`. -/
def stripVoidGo : Nat → List Char → List Char
  | 0, l => l
  | _ + 1, [] => []
  | fuel + 1, c :: rest =>
    match matchVoidOpen (c :: rest) with
    | some after =>
      match dropThroughF ['>'] after with
      | some suffix => stripVoidGo fuel suffix
      | none => c :: stripVoidGo fuel rest
    | none => c :: stripVoidGo fuel rest

/-- Strip void tags from `l`. -/
def stripVoidTags (l : List Char) : List Char :=
  stripVoidGo l.length l

/-- Embedding of `clean_dom` (src/Explorer/explorer_agent.py:16-26).
Note that the first substitution of the source,
`re.sub(r"", "", raw_html)`, has an empty pattern: it replaces the
empty string by the empty string at every position and is the identity.
In particular HTML comments are not removed by any of the
substitutions. -/
def cleanDom (raw : List Char) : List Char :=
  let s1 := raw
  let s2 := stripBlocks "<script".toList "</script>".toList s1
  let s3 := stripBlocks "<style".toList "</style>".toList s2
  let s4 := stripVoidTags s3
  let s5 := pyStripL (collapseWs s4)
  s5.take 10000

/-- `clean_dom` on strings. -/
def cleanDomS (s : String) : String :=
  String.mk (cleanDom s.toList)

/-- C7: for every input HTML string, `clean_dom` returns a string of
length at most the fixed character budget in which script content,
style content, HTML comments, and void tags have been stripped and
whitespace collapsed; in particular no HTML comment survives.
This theorem documents the code bug refuting the comment clause: the
comment-stripping substitution of the source has an empty pattern (a
no-op), contradicting the function's own docstring ("Removes
comments, script/style tags, ..."), so an HTML comment passes through
`clean_dom` unchanged. -/
theorem cleanDom_comment_survives :
    cleanDomS "<!-- secret -->" = "<!-- secret -->" := by
  decide

/-! ## Link discovery: `extract_valid_links`
(src/Explorer/explorer_agent.py:28-44)

The anchor pattern is
`r'<a\s+(?:[^>]*?\s+)?href=["\']([^"\'#]*)["\']'` with `re.IGNORECASE`,
applied with `re.findall`.  The matcher below realises exactly the
backtracking order of the Python engine for this pattern:

* after the literal `<a`, the greedy `\s+` tries its maximal run first;
  splits consuming fewer whitespace characters only re-attempt
  positions that the maximal-run round already attempted (the optional
  group can absorb leftover whitespace, and `href=` cannot begin with a
  whitespace character), so only the maximal run needs to be explored;
* the optional group `(?:[^>]*?\s+)?` is greedy and is tried before its
  omission; its lazy body scans left to right, never crossing `>`, and
  at each whitespace run attempts `href=` after the longest ws suffix
  first (`\s+` greedy);
* only when the group fails everywhere is `href=` tried directly at the
  position right after the `\s+` run;
* the capture `[^"\'#]*` is greedy over characters that are neither
  quote nor `#`; since it can never contain a quote, the match succeeds
  exactly when the character following the maximal run is a quote
  (either kind — the two quote positions are independent classes). -/

/-- A quote character, the class `["\']`. -/
def isQuoteCh (c : Char) : Bool :=
  c = '"' || c = '\x27'

/-- The capture class `[^"\'#]`. -/
def hrefCls (c : Char) : Bool :=
  !(isQuoteCh c) && c != '#'

/-- Case-insensitive literal match at the head of `l` (the pattern is
compiled with `re.IGNORECASE`). -/
def startsWithCI : List Char → List Char → Bool
  | [], _ => true
  | _ :: _, [] => false
  | p :: ps, c :: cs => (c.toLower = p.toLower) && startsWithCI ps cs

/-- Try to match `href=["\']([^"\'#]*)["\']` at the head of `l`;
return the capture (the maximal class run) and the remainder after the
whole match. -/
def tryHref (l : List Char) : Option (List Char × List Char) :=
  if startsWithCI "href=".toList l then
    match l.drop 5 with
    | q :: r2 =>
      if isQuoteCh q then
        match r2.drop (r2.takeWhile hrefCls).length with
        | q2 :: tail =>
          if isQuoteCh q2 then some (r2.takeWhile hrefCls, tail) else none
        | [] => none
      else none
    | [] => none
  else none

/-- At a whitespace run of length `runLen` starting at `aj`, attempt
`href=…` after consuming `m` whitespace characters for
`m = runLen, …, 1` in that order (`\s+` is greedy). -/
def tryWsThenHref : Nat → List Char → Option (List Char × List Char)
  | 0, _ => none
  | m + 1, aj =>
    match tryHref (aj.drop (m + 1)) with
    | some r => some r
    | none => tryWsThenHref m aj

/-- Lazy scan of the optional group body `[^>]*?\s+` followed by
`href=…`: advance one character at a time, never crossing `>`; at each
whitespace position attempt the `\s+ href=…` continuation. -/
def groupScan : List Char → Option (List Char × List Char)
  | [] => none
  | c :: rest =>
    if c = '>' then none
    else if isWsChar c then
      match tryWsThenHref ((c :: rest).takeWhile isWsChar).length (c :: rest) with
      | some r => some r
      | none => groupScan rest
    else groupScan rest

/-- Try to match the full anchor pattern at the head of `l`; return the
capture and the remainder after the match.  The `\s+` after `<a` must
be nonempty; as argued above only its maximal run needs exploring, so
the continuation starts at `dropWhile isWsChar`. -/
def matchAnchor : List Char → Option (List Char × List Char)
  | c :: a :: l2 =>
    if c = '<' && a.toLower = 'a' then
      if (l2.takeWhile isWsChar).isEmpty then none
      else
        match groupScan (l2.dropWhile isWsChar) with
        | some r => some r
        | none => tryHref (l2.dropWhile isWsChar)
    else none
  | _ => none

/-- `re.findall` of the anchor pattern: scan left to right, emit each
leftmost match's capture and continue after the match
(non-overlapping).  Every match consumes at least one character, so
`fuel = l.length` makes the scan total and equal to the unfuelled
one. -/
def findAnchorGo : Nat → List Char → List (List Char)
  | 0, _ => []
  | _ + 1, [] => []
  | fuel + 1, c :: rest =>
    match matchAnchor (c :: rest) with
    | some (cap, after) => cap :: findAnchorGo fuel after
    | none => findAnchorGo fuel rest

/-- All captures of the anchor pattern in `l`
(`re.findall(r'<a\s+(?:[^>]*?\s+)?href=["\']([^"\'#]*)["\']', l, re.IGNORECASE)`). -/
def findAnchorHrefs (l : List Char) : List (List Char) :=
  findAnchorGo l.length l

/-- Does `u` start with `http://` or `https://`?  This is the source's
`absolute_url.startswith(("http://", "https://"))` filter. -/
def httpPrefixed (u : List Char) : Bool :=
  ("http://".toList).isPrefixOf u || ("https://".toList).isPrefixOf u

/-- Split `u` at the first occurrence of the literal `://` into the
part before it and the part after it. -/
def splitScheme : List Char → Option (List Char × List Char)
  | [] => none
  | c :: rest =>
    if ("://".toList).isPrefixOf (c :: rest) then some ([], (c :: rest).drop 3)
    else (splitScheme rest).map fun p => (c :: p.1, p.2)

/-- Modelled from the external library `urllib.parse.urlparse(u).netloc`
for the URL shapes this program produces and consumes (absolute
`scheme://host/…` URLs): the text after the first `://` up to the next
`/`, `?` or `#`; empty when `u` has no `://`. -/
def netlocOf (u : List Char) : List Char :=
  match splitScheme u with
  | some p => p.2.takeWhile fun c => c != '/' && c != '?' && c != '#'
  | none => []

/-- Modelled from the external library `urllib.parse.urljoin(base, href)`
for the cases this program exercises: an absolute `http(s)` href is
returned unchanged; an empty href yields the base; a scheme-relative
`//…` href inherits the base scheme; a root-relative `/…` href replaces
the base path; any other href replaces the last path segment of the
base.  Dot-segment normalisation is not modelled; no theorem below
depends on the internals of this function. -/
def urljoinM (base href : List Char) : List Char :=
  if httpPrefixed href then href
  else if href.isEmpty then base
  else
    match splitScheme base with
    | none => href
    | some (scheme, rest) =>
      let nl := rest.takeWhile fun c => c != '/' && c != '?' && c != '#'
      let path := (rest.drop nl.length).takeWhile fun c => c != '?' && c != '#'
      if href.take 2 = ['/', '/'] then scheme ++ ':' :: href
      else if href.take 1 = ['/'] then scheme ++ "://".toList ++ nl ++ href
      else
        let dir := (path.reverse.dropWhile fun c => c != '/').reverse
        let dir2 := if dir.isEmpty then ['/'] else dir
        scheme ++ "://".toList ++ nl ++ dir2 ++ href

/-- Python set insertion, modelled as append-if-absent (the iteration
order of the final `list(new_links)` is unspecified in Python; the
claims only use membership and multiplicity, which the model
preserves). -/
def insertNew (acc : List (List Char)) (x : List Char) : List (List Char) :=
  if acc.contains x then acc else acc ++ [x]

/-- `urljoin(base_url, href).split('#')[0].split('?')[0]`: the
absolute URL with fragment and query stripped. -/
def absUrlOf (baseUrl href : List Char) : List Char :=
  ((urljoinM baseUrl href).takeWhile (· != '#')).takeWhile (· != '?')

/-- The per-href pipeline body of `extract_valid_links`: resolve and
strip, then the three filters (scheme prefix, same netloc, not
visited), then set insertion. -/
def linkStep (baseUrl : List Char) (visited : List (List Char))
    (acc : List (List Char)) (href : List Char) : List (List Char) :=
  if httpPrefixed (absUrlOf baseUrl href)
      && netlocOf (absUrlOf baseUrl href) == netlocOf baseUrl
      && !(visited.contains (absUrlOf baseUrl href))
  then insertNew acc (absUrlOf baseUrl href)
  else acc

/-- Embedding of `extract_valid_links`
(src/Explorer/explorer_agent.py:28-44). -/
def extractValidLinks (baseUrl rawHtml : List Char)
    (visited : List (List Char)) : List (List Char) :=
  (findAnchorHrefs rawHtml).foldl (linkStep baseUrl visited) []

/-- `extract_valid_links` on strings, as used by the orchestrator. -/
def extractValidLinksS (baseUrl rawHtml : String) (visited : List String) :
    List String :=
  (extractValidLinks baseUrl.toList rawHtml.toList
    (visited.map String.toList)).map String.mk

/-- Every capture produced by `tryHref` consists of characters of the
class `[^"\'#]`. -/
theorem tryHref_cap {l cap r : List Char} (h : tryHref l = some (cap, r)) :
    ∀ c ∈ cap, hrefCls c = true := by
  unfold tryHref at h
  repeat' split at h
  any_goals exact Option.noConfusion h
  simp only [Option.some.injEq, Prod.mk.injEq] at h
  obtain ⟨h1, h2⟩ := h
  subst h1
  exact fun c hc => List.mem_takeWhile_imp hc

/-- Captures from `tryWsThenHref` are class-clean. -/
theorem tryWsThenHref_cap {m : Nat} {aj cap r : List Char}
    (h : tryWsThenHref m aj = some (cap, r)) :
    ∀ c ∈ cap, hrefCls c = true := by
  induction m with
  | zero => simp [tryWsThenHref] at h
  | succ m ih =>
    unfold tryWsThenHref at h
    split at h
    · rename_i r2 heq
      injection h with h
      subst h
      exact tryHref_cap heq
    · exact ih h

/-- Captures from `groupScan` are class-clean. -/
theorem groupScan_cap {l cap r : List Char}
    (h : groupScan l = some (cap, r)) :
    ∀ c ∈ cap, hrefCls c = true := by
  induction l with
  | nil => simp [groupScan] at h
  | cons c rest ih =>
    unfold groupScan at h
    split at h
    · exact absurd h (by simp)
    · split at h
      · split at h
        · rename_i r2 heq
          injection h with h
          subst h
          exact tryWsThenHref_cap heq
        · exact ih h
      · exact ih h

/-- Captures from `matchAnchor` are class-clean; in particular no
capture contains `#`, so an href carrying a fragment never matches. -/
theorem matchAnchor_cap {l cap r : List Char}
    (h : matchAnchor l = some (cap, r)) :
    ∀ c ∈ cap, hrefCls c = true := by
  cases l with
  | nil => simp [matchAnchor] at h
  | cons c t =>
    cases t with
    | nil => simp [matchAnchor] at h
    | cons a l2 =>
      have hdef : matchAnchor (c :: a :: l2)
          = if c = '<' && a.toLower = 'a' then
              if (l2.takeWhile isWsChar).isEmpty then none
              else
                match groupScan (l2.dropWhile isWsChar) with
                | some r => some r
                | none => tryHref (l2.dropWhile isWsChar)
            else none := rfl
      rw [hdef] at h
      split at h
      · split at h
        · exact absurd h (by simp)
        · split at h
          · rename_i r2 heq
            injection h with h
            subst h
            exact groupScan_cap heq
          · exact tryHref_cap h
      · exact absurd h (by simp)

/-- Every capture returned by the findall scan is class-clean. -/
theorem findAnchorGo_cap {fuel : Nat} {l cap : List Char}
    (h : cap ∈ findAnchorGo fuel l) :
    ∀ c ∈ cap, hrefCls c = true := by
  induction fuel generalizing l with
  | zero => simp [findAnchorGo] at h
  | succ fuel ih =>
    match l with
    | [] => simp [findAnchorGo] at h
    | c :: rest =>
      unfold findAnchorGo at h
      split at h
      · rename_i cap2 after heq
        rcases List.mem_cons.mp h with h | h
        · subst h
          exact matchAnchor_cap heq
        · exact ih h
      · exact ih h

/-- `insertNew` preserves freedom from duplicates. -/
theorem insertNew_nodup {acc : List (List Char)} {x : List Char}
    (h : acc.Nodup) : (insertNew acc x).Nodup := by
  unfold insertNew
  split
  · exact h
  · rename_i hc
    refine List.Nodup.append h (List.nodup_singleton x) ?_
    intro a ha hb
    rcases List.mem_singleton.mp hb with rfl
    exact hc (by simpa using ha)

/-- Membership after `insertNew`. -/
theorem insertNew_mem {acc : List (List Char)} {x u : List Char}
    (h : u ∈ insertNew acc x) : u ∈ acc ∨ u = x := by
  unfold insertNew at h
  split at h
  · exact Or.inl h
  · rcases List.mem_append.mp h with h | h
    · exact Or.inl h
    · exact Or.inr (List.mem_singleton.mp h)

/-- The filter properties enforced by `linkStep` on any freshly
inserted URL. -/
theorem linkStep_mem {base : List Char} {visited acc : List (List Char)}
    {href u : List Char} (h : u ∈ linkStep base visited acc href) :
    u ∈ acc ∨
      (httpPrefixed u = true
        ∧ netlocOf u = netlocOf base
        ∧ (∀ c ∈ u, c ≠ '#' ∧ c ≠ '?')
        ∧ u ∉ visited) := by
  unfold linkStep at h
  split at h
  · rename_i hcond
    rcases insertNew_mem h with h | rfl
    · exact Or.inl h
    · right
      simp only [Bool.and_eq_true, Bool.not_eq_true', beq_iff_eq] at hcond
      obtain ⟨⟨h1, h2⟩, h3⟩ := hcond
      refine ⟨h1, h2, ?_, ?_⟩
      · intro ch hc
        unfold absUrlOf at hc
        have hq := List.mem_takeWhile_imp hc
        have hin : ch ∈ (urljoinM base href).takeWhile (· != '#') :=
          (List.takeWhile_sublist _).mem hc
        have hh := List.mem_takeWhile_imp hin
        exact ⟨by simpa using hh, by simpa using hq⟩
      · intro hmem
        have hcont : visited.contains (absUrlOf base href) = true := by
          simpa using hmem
        rw [h3] at hcont
        exact Bool.noConfusion hcont
  · exact Or.inl h

/-- `linkStep` preserves freedom from duplicates. -/
theorem linkStep_nodup {base : List Char} {visited acc : List (List Char)}
    {href : List Char} (h : acc.Nodup) :
    (linkStep base visited acc href).Nodup := by
  unfold linkStep
  split
  · exact insertNew_nodup h
  · exact h

/-- Fold invariant for `extract_valid_links`. -/
theorem linkFold_sound (base : List Char) (visited : List (List Char))
    (hrefs : List (List Char)) (acc : List (List Char))
    (hmem : ∀ u ∈ acc,
      httpPrefixed u = true
        ∧ netlocOf u = netlocOf base
        ∧ (∀ c ∈ u, c ≠ '#' ∧ c ≠ '?')
        ∧ u ∉ visited)
    (hnd : acc.Nodup) :
    (∀ u ∈ hrefs.foldl (linkStep base visited) acc,
      httpPrefixed u = true
        ∧ netlocOf u = netlocOf base
        ∧ (∀ c ∈ u, c ≠ '#' ∧ c ≠ '?')
        ∧ u ∉ visited)
      ∧ (hrefs.foldl (linkStep base visited) acc).Nodup := by
  induction hrefs generalizing acc with
  | nil => exact ⟨hmem, hnd⟩
  | cons href rest ih =>
    refine ih (linkStep base visited acc href) ?_ (linkStep_nodup hnd)
    intro u hu
    rcases linkStep_mem hu with h | h
    · exact hmem u h
    · exact h

/-- C6 (amended): every URL returned by
`extract_valid_links(base_url, raw_html, visited)` starts with
`http://` or `https://`, has the same network location as `base_url`,
contains neither `#` nor `?` (fragment and query stripped), is not a
member of `visited`, and appears at most once in the result;
moreover every href matched by the anchor pattern is free of quote and
`#` characters, so an href that carries a fragment never matches the
pattern and contributes nothing to the result. -/
theorem extractValidLinks_sound (base html : List Char)
    (visited : List (List Char)) :
    (∀ u ∈ extractValidLinks base html visited,
      httpPrefixed u = true
        ∧ netlocOf u = netlocOf base
        ∧ (∀ c ∈ u, c ≠ '#' ∧ c ≠ '?')
        ∧ u ∉ visited)
      ∧ (extractValidLinks base html visited).Nodup
      ∧ (∀ cap ∈ findAnchorHrefs html, ∀ c ∈ cap, hrefCls c = true) := by
  have h := linkFold_sound base visited (findAnchorHrefs html) []
    (by intro u hu; exact absurd hu (List.not_mem_nil u)) List.nodup_nil
  exact ⟨h.1, h.2, fun cap hc => findAnchorGo_cap hc⟩

/-- Witness for C6 (amended): the concrete page
`<a href="/q">` against base `https://x.com/p` yields
`https://x.com/q`, which satisfies every property of the theorem. -/
theorem extractValidLinks_sound_witness :
    httpPrefixed "https://x.com/q".toList = true
      ∧ netlocOf "https://x.com/q".toList = netlocOf "https://x.com/p".toList
      ∧ (∀ c ∈ "https://x.com/q".toList, c ≠ '#' ∧ c ≠ '?')
      ∧ "https://x.com/q".toList ∉ ([] : List (List Char)) :=
  (extractValidLinks_sound "https://x.com/p".toList
    "<a href=\"/q\">".toList []).1 "https://x.com/q".toList (by decide)

/-- C6 counterexample: the claim asserts that an href carrying a
fragment contributes its fragment-stripped absolute URL when it passes
the other filters.  On the concrete page `<a href="/q#frag">x</a>`
against base `https://x.com/p` the fragment-stripped URL
`https://x.com/q` passes all other filters — the same page with the
fragment removed from the href yields exactly that URL — yet the
fragment-carrying href matches nothing (the capture class `[^"\'#]*`
cannot cross `#`), so the result is empty. -/
theorem extractValidLinks_fragment_href_cex :
    extractValidLinksS "https://x.com/p" "<a href=\"/q#frag\">x</a>" [] = []
      ∧ extractValidLinksS "https://x.com/p" "<a href=\"/q\">x</a>" []
        = ["https://x.com/q"] := by
  constructor
  · decide
  · decide

/-! ## Locator strategy, element categorizer, fingerprint extractor
(src/Explorer/explorer.py:211-269, 163-207) -/

/-- The single-quote character, written by code point to keep locator
format strings readable. -/
def sglq : String := "\x27"

/-- First value of an attribute key in the attribute map (Python dict
access; keys are unique). -/
def getAttr (attrs : List (String × String)) (k : String) : Option String :=
  attrs.lookup k

/-- Lexicographic code-point order on strings, as used by Python
`sorted` on `str`. -/
def charsLe : List Char → List Char → Bool
  | [], _ => true
  | _ :: _, [] => false
  | a :: as2, b :: bs =>
    if a.val < b.val then true
    else if b.val < a.val then false
    else charsLe as2 bs

/-- Stable insertion into an ascending list. -/
def insortStr (x : String) : List String → List String
  | [] => [x]
  | y :: ys => if charsLe x.toList y.toList then x :: y :: ys else y :: insortStr x ys

/-- Python `sorted` on a list of strings. -/
def sortStrs (l : List String) : List String :=
  l.foldr insortStr []

/-- Embedding of `PageExplorer._categorize_element`
(src/Explorer/explorer.py:211-241). -/
def categorizeElement (tag : String) (attrs : List (String × String)) : String :=
  if tag = "button" then "button"
  else if tag = "a" then "link"
  else if tag = "select" then "select"
  else if tag = "textarea" then "textarea"
  else if tag = "input" then
    let ty := ((getAttr attrs "type").getD "text").toLower
    if ty = "submit" || ty = "button" || ty = "reset" then "button"
    else if ty = "checkbox" then "checkbox"
    else if ty = "radio" then "radio"
    else if ty = "text" || ty = "password" || ty = "email" || ty = "number"
        || ty = "url" || ty = "tel" || ty = "search" then "input"
    else if ty = "hidden" then "hidden"
    else "input"
  else "other"

/-- Embedding of `PageExplorer._generate_css_selector`
(src/Explorer/explorer.py:245-258).  The class rule keeps the prefix of
the `class` value before the first space (`split(" ")[0]`). -/
def generateCssSelector (tag : String) (attrs : List (String × String)) : String :=
  match getAttr attrs "id" with
  | some v => "#" ++ v
  | none =>
    match getAttr attrs "data-testid" with
    | some v => "[data-testid=" ++ sglq ++ v ++ sglq ++ "]"
    | none =>
      match getAttr attrs "name" with
      | some v => tag ++ "[name=" ++ sglq ++ v ++ sglq ++ "]"
      | none =>
        match getAttr attrs "class" with
        | some v => tag ++ "." ++ String.mk (v.toList.takeWhile (· != ' '))
        | none => tag

/-- Python `text.replace("'", "\"")`: every single-quote character in
the text is substituted by a double-quote character. -/
def replaceSqDq (s : String) : String :=
  String.mk (s.toList.map fun c => if c = '\x27' then '"' else c)

/-- Embedding of `PageExplorer._generate_xpath`
(src/Explorer/explorer.py:260-269).  Note the format string of the
source emits a space after the comma
(`f"//{tag}[contains(text(), '{safe_text}')]"`), and the escaping
substitutes single quotes (the XPath string delimiter) by double
quotes. -/
def generateXpath (tag : String) (attrs : List (String × String))
    (text : String) : String :=
  match getAttr attrs "id" with
  | some v => "//*[@id=" ++ sglq ++ v ++ sglq ++ "]"
  | none =>
    if text ≠ "" ∧ text.length ≤ 40 then
      "//" ++ tag ++ "[contains(text(), " ++ sglq ++ replaceSqDq text ++ sglq ++ ")]"
    else "//" ++ tag

/-- A string append whose left part is non-empty is non-empty. -/
theorem append_ne_empty_left (a b : String) (h : a ≠ "") : a ++ b ≠ "" := by
  intro hc
  apply h
  have hl := congrArg String.length hc
  rw [String.length_append] at hl
  have h0 : ("" : String).length = 0 := rfl
  rw [h0] at hl
  have ha : a.length = 0 := by omega
  cases a with
  | mk data =>
    cases data with
    | nil => rfl
    | cons c cs => simp [String.length] at ha

/-- C8 counterexample: for tag `a`, no attributes and text `it's`, the
code produces `//a[contains(text(), 'it"s')]` — the single quote is
substituted by a double quote and a space follows the comma — which
differs from the claim's `//tag[contains(text(),'text')]` with
double-quote characters escaped (the text `it's` has none, so under the
claim it would appear verbatim and without the space). -/
theorem generateXpath_quote_cex :
    generateXpath "a" [] ("it" ++ sglq ++ "s")
        = "//a[contains(text(), " ++ sglq ++ "it\"s" ++ sglq ++ ")]"
      ∧ generateXpath "a" [] ("it" ++ sglq ++ "s")
        ≠ "//a[contains(text()," ++ sglq ++ "it" ++ sglq ++ "s" ++ sglq ++ ")]" := by
  constructor
  · decide
  · decide

/-- C8 (amended): when attribute `id` is present the generated XPath is
`//*[@id='value']`; otherwise when the text is non-empty and at most 40
characters it is `//tag[contains(text(), 'text')]` — with a space after
the comma — where single-quote characters in the text are substituted
by double-quote characters; otherwise it is `//tag`; and the result is
always a non-empty string (the function is total, modelling "never
raises"). -/
theorem generateXpath_cases (tag : String) (attrs : List (String × String))
    (text : String) :
    (∀ v, getAttr attrs "id" = some v →
      generateXpath tag attrs text = "//*[@id=" ++ sglq ++ v ++ sglq ++ "]")
      ∧ (getAttr attrs "id" = none → text ≠ "" → text.length ≤ 40 →
        generateXpath tag attrs text
          = "//" ++ tag ++ "[contains(text(), " ++ sglq ++ replaceSqDq text ++ sglq ++ ")]")
      ∧ (getAttr attrs "id" = none → (text = "" ∨ 40 < text.length) →
        generateXpath tag attrs text = "//" ++ tag)
      ∧ generateXpath tag attrs text ≠ "" := by
  refine ⟨?_, ?_, ?_, ?_⟩
  · intro v hv
    simp [generateXpath, hv]
  · intro hid hne hlen
    simp only [generateXpath, hid]
    rw [if_pos ⟨hne, hlen⟩]
  · intro hid hcase
    simp only [generateXpath, hid]
    rw [if_neg]
    rintro ⟨hne, hlen⟩
    rcases hcase with h | h
    · exact hne h
    · omega
  · unfold generateXpath
    split
    · exact append_ne_empty_left _ _ (append_ne_empty_left _ _
        (append_ne_empty_left _ _ (append_ne_empty_left _ _ (by decide))))
    · split
      · exact append_ne_empty_left _ _ (append_ne_empty_left _ _
          (append_ne_empty_left _ _ (append_ne_empty_left _ _
            (append_ne_empty_left _ _ (append_ne_empty_left _ _ (by decide))))))
      · exact append_ne_empty_left _ _ (by decide)

/-- Witness for C8 (amended): each branch evaluated at a concrete
input. -/
theorem generateXpath_cases_witness :
    generateXpath "input" [("id", "user")] "hi"
        = "//*[@id=" ++ sglq ++ "user" ++ sglq ++ "]"
      ∧ generateXpath "a" [] "go"
        = "//" ++ "a" ++ "[contains(text(), " ++ sglq ++ replaceSqDq "go" ++ sglq ++ ")]"
      ∧ generateXpath "div" [] "" = "//" ++ "div" :=
  ⟨(generateXpath_cases "input" [("id", "user")] "hi").1 "user" rfl,
   (generateXpath_cases "a" [] "go").2.1 rfl (by decide) (by decide),
   (generateXpath_cases "div" [] "").2.2.1 rfl (Or.inl rfl)⟩

/-! ## Page explorer: `PageExplorer.explore`
(src/Explorer/explorer.py:18-159)

The browser is an external collaborator; a `Candidate` records the
behaviour of one element handle returned by the interactive-element
query (`page.locator("a, button, input, select, textarea")`), and
`NavOutcome` records whether the navigation/capture phase succeeded.
The outer `except` of the source can only trigger before element
enumeration begins (everything inside the loop is guarded by the inner
per-element `try`), so a navigation failure yields no metadata, DOM,
screenshot or elements, which is what `NavOutcome.errored` models. -/

/-- A bounding box as returned by `bounding_box()`.  The source
compares coordinates against `0` and `4`; integers model those
comparisons (the claims do not exercise fractional pixels). -/
structure BBox where
  x : Int
  y : Int
  width : Int
  height : Int
deriving DecidableEq, Repr

/-- Behaviour of one element handle during extraction.  `raises = some e`
models an exception thrown by any of the per-element calls
(`is_visible`, `evaluate`, `text_content`, `bounding_box`,
`is_enabled`); the inner `try` catches it. -/
structure Candidate where
  visible : Bool
  tag : String
  text : String
  attrs : List (String × String)
  bbox : Option BBox
  enabled : Bool
  raises : Option String
deriving Repr

/-- One `element_data` dict (src/Explorer/explorer.py:105-117);
`visible` is the constant `True` of the source. -/
structure ElementData where
  tag : String
  category : String
  text : String
  attrs : List (String × String)
  bbox : BBox
  enabled : Bool
  visible : Bool
  css : String
  xpath : String
deriving Repr, DecidableEq

/-- One fingerprint dict (src/Explorer/explorer.py:181-205). -/
structure Fingerprint where
  element_id : String
  index : Nat
  tag : String
  category : String
  text : String
  bbox : BBox
  attributes_key : List String
  dominant_attribute : String
  fallback_xpath : String
  key_id : Option String
  key_name : Option String
  key_testid : Option String
  key_placeholder : Option String
  key_class : Option String
  enabled : Bool
deriving Repr, DecidableEq

/-- Embedding of `PageExplorer._extract_fingerprint`
(src/Explorer/explorer.py:163-207). -/
def extractFingerprint (e : ElementData) (index : Nat) : Fingerprint :=
  { element_id := e.tag ++ "-" ++ toString index
    index := index
    tag := e.tag
    category := e.category
    text := e.text
    bbox := e.bbox
    attributes_key := sortStrs (e.attrs.map Prod.fst)
    dominant_attribute := e.css
    fallback_xpath := e.xpath
    key_id := getAttr e.attrs "id"
    key_name := getAttr e.attrs "name"
    key_testid := getAttr e.attrs "data-testid"
    key_placeholder := getAttr e.attrs "placeholder"
    key_class := getAttr e.attrs "class"
    enabled := e.enabled }

/-- Outcome of processing one candidate inside the per-element `try`
(src/Explorer/explorer.py:69-126): an exception is recorded, an
invisible or badly-sized element is silently skipped, and a surviving
element is materialised with category and locators. -/
inductive CandOutcome where
  | errored (msg : String)
  | skipped
  | kept (e : ElementData)

/-- The body of the per-element `try`, with the source's filter order:
visibility, then bounding-box presence and positive size, then
non-negative origin, then the 4×4 minimum. -/
def processCandidate (c : Candidate) : CandOutcome :=
  match c.raises with
  | some e => .errored e
  | none =>
    if !c.visible then .skipped
    else
      match c.bbox with
      | none => .skipped
      | some b =>
        if b.width ≤ 0 ∨ b.height ≤ 0 then .skipped
        else if b.x < 0 ∨ b.y < 0 then .skipped
        else if b.width < 4 ∨ b.height < 4 then .skipped
        else
          .kept
            { tag := c.tag
              category := categorizeElement c.tag c.attrs
              text := pyStripS c.text
              attrs := c.attrs
              bbox := b
              enabled := c.enabled
              visible := true
              css := generateCssSelector c.tag c.attrs
              xpath := generateXpath c.tag c.attrs (pyStripS c.text) }

/-- The `for i in range(count)` loop of `explore`: `i` counts every
candidate; a kept element is appended together with its fingerprint at
index `len(elements) - 1`; an error is appended as
`"Element {i} error: {e}"`. -/
def elementLoop : Nat → List Candidate →
    List ElementData × List Fingerprint × List String →
    List ElementData × List Fingerprint × List String
  | _, [], st => st
  | i, c :: rest, (els, fps, errs) =>
    match processCandidate c with
    | .errored e =>
      elementLoop (i + 1) rest
        (els, fps, errs ++ ["Element " ++ toString i ++ " error: " ++ e])
    | .skipped => elementLoop (i + 1) rest (els, fps, errs)
    | .kept el =>
      elementLoop (i + 1) rest
        (els ++ [el],
          fps ++ [extractFingerprint el ((els ++ [el]).length - 1)],
          errs)

/-- The `metrics` dict of an exploration record
(src/Explorer/explorer.py:151-156). -/
structure ExpMetrics where
  exploration_time_seconds : Int
  total_elements_found : Nat
  total_errors : Nat
  element_statistics : List (String × Nat)
deriving Repr, DecidableEq

/-- A sealed exploration record (`self.results` after `explore`
returns). -/
structure ExplorationRecord where
  meta_url : String
  meta_title : String
  dom_html : String
  screenshot : String
  elements : List ElementData
  fingerprints : List Fingerprint
  errors : List String
  metrics : ExpMetrics
deriving Repr, DecidableEq

/-- Increment the count of a category key in the insertion-ordered
histogram (Python dict update). -/
def bumpCount : List (String × Nat) → String → List (String × Nat)
  | [], k => [(k, 1)]
  | (k0, n) :: rest, k =>
    if k0 = k then (k0, n + 1) :: rest else (k0, n) :: bumpCount rest k

/-- The category histogram (src/Explorer/explorer.py:146-149). -/
def categoryStats (els : List ElementData) : List (String × Nat) :=
  els.foldl (fun acc e => bumpCount acc e.category) []

/-- Data captured from a successfully navigated page: final URL after
redirects, title, serialized DOM, screenshot hex, and the queried
candidate handles in discovery order. -/
structure PageData where
  finalUrl : String
  title : String
  dom_html : String
  screenshot : String
  candidates : List Candidate

/-- Whether navigation and capture succeeded, or the outer `try`
caught an exception `msg`. -/
inductive NavOutcome where
  | ok (pd : PageData)
  | errored (msg : String)

/-- Errors appended by the annotated-screenshot step
(src/Explorer/explorer.py:135-140); the step is best-effort and its
failure message is environment-supplied.  When navigation failed the
step always fails in the source (the `screenshot` key is absent), which
corresponds to `annot = some msg` there. -/
def annotErrs (annot : Option String) : List String :=
  match annot with
  | some a => ["Annotation error: " ++ a]
  | none => []

/-- Embedding of `PageExplorer.explore`
(src/Explorer/explorer.py:18-159).  `url` is the navigation target
(consumed by the browser capability, which produces `nav`); `elapsed`
is the wall-clock time of the pass.  The function is total: the
operation never raises and always returns a sealed record with metrics
computed from the final element and error lists. -/
def explore (url : String) (nav : NavOutcome) (annot : Option String)
    (elapsed : Int) : ExplorationRecord :=
  match nav with
  | .ok pd =>
    { meta_url := pd.finalUrl
      meta_title := pd.title
      dom_html := pd.dom_html
      screenshot := pd.screenshot
      elements := (elementLoop 0 pd.candidates ([], [], [])).1
      fingerprints := (elementLoop 0 pd.candidates ([], [], [])).2.1
      errors := (elementLoop 0 pd.candidates ([], [], [])).2.2 ++ annotErrs annot
      metrics :=
        { exploration_time_seconds := elapsed
          total_elements_found := (elementLoop 0 pd.candidates ([], [], [])).1.length
          total_errors :=
            ((elementLoop 0 pd.candidates ([], [], [])).2.2 ++ annotErrs annot).length
          element_statistics :=
            categoryStats (elementLoop 0 pd.candidates ([], [], [])).1 } }
  | .errored m =>
    { meta_url := ""
      meta_title := ""
      dom_html := ""
      screenshot := ""
      elements := []
      fingerprints := []
      errors := ("Navigation error: " ++ m) :: annotErrs annot
      metrics :=
        { exploration_time_seconds := elapsed
          total_elements_found := 0
          total_errors := (("Navigation error: " ++ m) :: annotErrs annot).length
          element_statistics := [] } }

/-- Alignment invariant of the element loop: at every point the
fingerprint list has the length of the element list and its
`element_id`s are `"{tag}-{index}"` for the index-aligned element. -/
theorem elementLoop_aligned (cs : List Candidate) :
    ∀ (i : Nat) (els : List ElementData) (fps : List Fingerprint)
      (errs : List String),
      fps.length = els.length →
      fps.map Fingerprint.element_id
        = els.enum.map (fun p => p.2.tag ++ "-" ++ toString p.1) →
      ((elementLoop i cs (els, fps, errs)).2.1.length
          = (elementLoop i cs (els, fps, errs)).1.length)
        ∧ (elementLoop i cs (els, fps, errs)).2.1.map Fingerprint.element_id
          = (elementLoop i cs (els, fps, errs)).1.enum.map
              (fun p => p.2.tag ++ "-" ++ toString p.1) := by
  induction cs with
  | nil => exact fun i els fps errs h1 h2 => ⟨h1, h2⟩
  | cons c rest ih =>
    intro i els fps errs h1 h2
    cases hpc : processCandidate c with
    | errored e =>
      rw [show elementLoop i (c :: rest) (els, fps, errs)
          = elementLoop (i + 1) rest
              (els, fps, errs ++ ["Element " ++ toString i ++ " error: " ++ e])
        by simp [elementLoop, hpc]]
      exact ih (i + 1) els fps _ h1 h2
    | skipped =>
      rw [show elementLoop i (c :: rest) (els, fps, errs)
          = elementLoop (i + 1) rest (els, fps, errs)
        by simp [elementLoop, hpc]]
      exact ih (i + 1) els fps errs h1 h2
    | kept el =>
      rw [show elementLoop i (c :: rest) (els, fps, errs)
          = elementLoop (i + 1) rest
              (els ++ [el],
                fps ++ [extractFingerprint el ((els ++ [el]).length - 1)],
                errs)
        by simp [elementLoop, hpc]]
      apply ih
      · simp [h1]
      · rw [List.map_append, h2, List.enum_append]
        simp [extractFingerprint]

/-- C5: for every exploration record produced by one pass of `explore`,
the fingerprint list is index-aligned with the element list:
the lengths agree and the fingerprint at position `i` has
`element_id = "{tag}-{i}"` where `tag` is the tag of `elements[i]`
(in particular it ends with `-i`). -/
theorem explore_fingerprints_aligned (url : String) (nav : NavOutcome)
    (annot : Option String) (elapsed : Int) :
    (explore url nav annot elapsed).fingerprints.length
        = (explore url nav annot elapsed).elements.length
      ∧ (explore url nav annot elapsed).fingerprints.map Fingerprint.element_id
        = (explore url nav annot elapsed).elements.enum.map
            (fun p => p.2.tag ++ "-" ++ toString p.1) := by
  cases nav with
  | ok pd =>
    simpa [explore] using
      elementLoop_aligned pd.candidates 0 [] [] [] rfl rfl
  | errored m => exact ⟨rfl, rfl⟩

/-- C3: the page exploration operation is a total function (it never
raises) and always returns a sealed record whose metrics are computed
from the final element and error lists; in particular, when navigation
throws, the returned record has a non-empty `errors` list and
`metrics.total_elements_found = 0`. -/
theorem explore_sealed_nav_failure (url : String) (nav : NavOutcome)
    (annot : Option String) (elapsed : Int) (m : String) :
    ((explore url nav annot elapsed).metrics.total_elements_found
        = (explore url nav annot elapsed).elements.length
      ∧ (explore url nav annot elapsed).metrics.total_errors
        = (explore url nav annot elapsed).errors.length
      ∧ (explore url nav annot elapsed).metrics.element_statistics
        = categoryStats (explore url nav annot elapsed).elements)
      ∧ ((explore url (.errored m) annot elapsed).errors ≠ []
        ∧ (explore url (.errored m) annot elapsed).metrics.total_elements_found
          = 0) := by
  constructor
  · cases nav with
    | ok pd => exact ⟨rfl, rfl, rfl⟩
    | errored m2 => exact ⟨rfl, rfl, rfl⟩
  · exact ⟨by simp [explore], rfl⟩

/-! ## Crawl orchestrator: `ExplorerAgent.start_exploration`
(src/Explorer/explorer_agent.py:71-235) -/

/-- The value of the LLM labeling task `llm_parse_page`
(src/Explorer/explorer_agent.py:80-141): either a validated structured
representation (abstracted as role assignments) or the degraded marker
`{"elements": [], "error": str(e)}`.  Every exception inside the task
is caught, so the task always settles with a value. -/
inductive LlmAnalysis where
  | parsed (roles : List (String × String))
  | degraded (err : String)
deriving Repr, DecidableEq

/-- LLM observability metrics returned next to the analysis; the
timing and token figures are environment-determined. -/
structure LlmMetrics where
  llm_response_time_seconds : Int
  tokens_consumed : Nat
deriving Repr, DecidableEq

/-- The pair returned by `llm_parse_page`. -/
structure LlmResultM where
  analysis : LlmAnalysis
  metrics : LlmMetrics
deriving Repr, DecidableEq

/-- Settled outcome of the persistence future `save_state_concurrently`
(src/Explorer/explorer_agent.py:46-66): the success tuple
`(True, filepath)`, the failure tuple `(False, str(e))`, or an
exception escaping the function (the `os.makedirs` call sits outside
its `try`) and stored in the future. -/
inductive SaveOutcome where
  | saved (path : String)
  | failedWrite (err : String)
  | raised (exc : String)
deriving Repr, DecidableEq

/-- Filename derivation of the persistence task
(src/Explorer/explorer_agent.py:56). -/
def saveFilename (url : String) : String :=
  (((url.replace "https://" "").replace "http://" "").replace "/" "_").replace "." "_"
    ++ ".json"

/-- Which of the two concurrently submitted futures settles first. -/
inductive TaskOrder where
  | llmFirst
  | saveFirst
deriving Repr, DecidableEq

/-- Environment plan for a URL whose per-URL protocol completes: the
exploration record, the settled results of the two enrichment tasks,
the order in which they finished, and the iteration wall time. -/
structure UrlSuccessPlan where
  record : ExplorationRecord
  llm : LlmResultM
  save : SaveOutcome
  order : TaskOrder
  elapsed : Int

/-- Modelled from the spec: `PageExplorer.explore_in_session(page, url)`
is invoked by the orchestrator (src/Explorer/explorer_agent.py:163) but
no method of that name exists under src/; per spec 4.4 the page
explorer always returns a sealed ExplorationRecord and never raises.
A `UrlPlan` therefore gives, per URL, one of the three outcomes the
per-URL `try` block (lines 160-228) can have, the latter two caught by
the orchestrator's `except` at line 230:

* `success`: the whole protocol completes — the record produced by the
  in-session exploration together with the settled outcomes of the two
  enrichment tasks;
* `failure`: an exception raised before the knowledge-base commit at
  line 220 (exploration, cleaning, task submission, the join, metric
  assembly) — neither the commit nor the `visited.add` at line 221 has
  happened;
* `discoveryFailure`: an exception raised in the link-discovery step at
  line 224, after the commit and the `visited.add` — e.g. `ValueError`
  from `urljoin`/`urlparse` inside `extract_valid_links` on a bracketed
  href such as `//[abc`, which the capture class `[^"\'#]*` admits.
  The commit and visited-add (lines 220-221) are plain dict/set updates
  and cannot raise, and nothing raising sits between line 221 and the
  discovery call, so these are exactly the post-commit exceptions;
  `extract_valid_links` raises before returning, so no discovered link
  reaches the enqueue loop at lines 226-228 (whose own membership test
  and append cannot raise). -/
inductive UrlPlan where
  | success (p : UrlSuccessPlan)
  | failure (exc : String)
  | discoveryFailure (p : UrlSuccessPlan) (exc : String)

/-- The environment of one crawl session: the behaviour of each URL. -/
def World := String → UrlPlan

/-- `concurrent.futures.wait([llm_future, save_future])`
(src/Explorer/explorer_agent.py:194): a barrier that returns only when
both futures have settled; the pair of settled outcomes is the same
whichever future finished first. -/
def joinBoth (order : TaskOrder) (llm : LlmResultM) (save : SaveOutcome) :
    LlmResultM × SaveOutcome :=
  match order with
  | .llmFirst => (llm, save)
  | .saveFirst => (llm, save)

/-- The merged `final_metrics` dict
(src/Explorer/explorer_agent.py:204-209). -/
structure FinalMetrics where
  total_response_time_seconds : Int
  explorer_time_seconds : Int
  llm_response_time_seconds : Int
  tokens_consumed : Nat
  element_statistics : List (String × Nat)
deriving Repr, DecidableEq

/-- A knowledge-base entry: `final_structured_representation =
{**exploration_results, "llm_analysis": …, "metrics": final_metrics}`
(src/Explorer/explorer_agent.py:214-218). -/
structure KbEntry where
  record : ExplorationRecord
  llm_analysis : LlmAnalysis
  metrics : FinalMetrics
deriving Repr, DecidableEq

/-- Build the committed entry for a URL from the exploration record,
the LLM future's result (`llm_future.result()`, line 196 — the only
future whose result is ever read) and the iteration time. -/
def mkEntry (rec : ExplorationRecord) (llm : LlmResultM) (elapsed : Int) :
    KbEntry :=
  { record := rec
    llm_analysis := llm.analysis
    metrics :=
      { total_response_time_seconds := elapsed
        explorer_time_seconds := rec.metrics.exploration_time_seconds
        llm_response_time_seconds := llm.metrics.llm_response_time_seconds
        tokens_consumed := llm.metrics.tokens_consumed
        element_statistics := rec.metrics.element_statistics } }

/-- The entry committed for a successful plan: wait on both futures
(the barrier), then read the LLM result and merge. -/
def entryOfPlan (p : UrlSuccessPlan) : KbEntry :=
  mkEntry p.record (joinBoth p.order p.llm p.save).1 p.elapsed

/-- Crawl state: FIFO queue, visited set (modelled as an
order-preserving duplicate-free list), knowledge base (URL-keyed
association list in commit order). -/
structure CrawlState where
  queue : List String
  visited : List String
  kb : List (String × KbEntry)
deriving Repr

/-- Per-URL processing after the pop
(src/Explorer/explorer_agent.py:160-231), with `st.queue` already
holding the remaining entries: on success the entry is committed, the
URL marked visited, and links discovered from the raw DOM against the
updated visited set are appended to the queue when not already present.
On an exception caught before the commit (`.failure`) the state is
unchanged — the commit (line 220) and the `visited.add` (line 221)
sit inside the `try` and are skipped.  On an exception raised during
link discovery (`.discoveryFailure`) the commit and `visited.add`
have already executed, and `extract_valid_links` raises before
returning its list, so the queue gains no link. -/
def processUrl (st : CrawlState) (url : String) (plan : UrlPlan) : CrawlState :=
  match plan with
  | .failure _ => st
  | .discoveryFailure p _ =>
    { queue := st.queue
      visited := st.visited ++ [url]
      kb := st.kb ++ [(url, entryOfPlan p)] }
  | .success p =>
    { queue :=
        (extractValidLinksS url p.record.dom_html (st.visited ++ [url])).foldl
          (fun q link => if q.contains link then q else q ++ [link]) st.queue
      visited := st.visited ++ [url]
      kb := st.kb ++ [(url, entryOfPlan p)] }

/-- The crawl loop (src/Explorer/explorer_agent.py:152-231): run while
the queue is nonempty and fewer than `maxPages` URLs are visited; pop
the front; skip silently when already visited; otherwise process.  The
function returns the trace of states at every loop-head check together
with the final state.  Well-founded recursion on
`(maxPages - |visited|, |queue|)` shows the loop terminates for every
world — in particular for cyclic link graphs such as a
self-referential page. -/
def crawlRun (world : World) (maxPages : Nat) (st : CrawlState) :
    List CrawlState × CrawlState :=
  match hq : st.queue with
  | [] => ([st], st)
  | u :: rest =>
    if hv : st.visited.length < maxPages then
      if hm : u ∈ st.visited then
        match crawlRun world maxPages { st with queue := rest } with
        | (tr, fin) => (st :: tr, fin)
      else
        match crawlRun world maxPages
            (processUrl { st with queue := rest } u (world u)) with
        | (tr, fin) => (st :: tr, fin)
    else ([st], st)
termination_by (maxPages - st.visited.length, st.queue.length)
decreasing_by
  · apply Prod.Lex.right
    simp [hq]
  · rcases hw : world u with p | e | ⟨p, e⟩
    · apply Prod.Lex.left
      simp only [processUrl, hw]
      simp [List.length_append]
      omega
    · apply Prod.Lex.right
      simp [processUrl, hw, hq]
    · apply Prod.Lex.left
      simp only [processUrl, hw]
      simp [List.length_append]
      omega

/-- `ExplorerAgent.start_exploration` for a session constructed as
`ExplorerAgent(start_url, max_pages)`: queue seeded with the start URL,
empty visited set and knowledge base; the final state carries the
returned knowledge base together with the final queue and visited
set. -/
def startExploration (startUrl : String) (maxPages : Nat) (world : World) :
    CrawlState :=
  (crawlRun world maxPages { queue := [startUrl], visited := [], kb := [] }).2
theorem crawlRun_nil (world : World) (mp : Nat) (v : List String)
    (kb : List (String × KbEntry)) :
    crawlRun world mp ⟨[], v, kb⟩ = ([⟨[], v, kb⟩], ⟨[], v, kb⟩) := by
  unfold crawlRun
  rfl

theorem crawlRun_stop (world : World) (mp : Nat) (u : String)
    (rest v : List String) (kb : List (String × KbEntry))
    (h : ¬ v.length < mp) :
    crawlRun world mp ⟨u :: rest, v, kb⟩
      = ([⟨u :: rest, v, kb⟩], ⟨u :: rest, v, kb⟩) := by
  unfold crawlRun
  simp [h]

theorem crawlRun_skip (world : World) (mp : Nat) (u : String)
    (rest v : List String) (kb : List (String × KbEntry))
    (h : v.length < mp) (hm : u ∈ v) :
    crawlRun world mp ⟨u :: rest, v, kb⟩
      = (⟨u :: rest, v, kb⟩ :: (crawlRun world mp ⟨rest, v, kb⟩).1,
        (crawlRun world mp ⟨rest, v, kb⟩).2) := by
  conv_lhs => rw [crawlRun.eq_def]
  simp [h, hm]

theorem crawlRun_proc (world : World) (mp : Nat) (u : String)
    (rest v : List String) (kb : List (String × KbEntry))
    (h : v.length < mp) (hm : u ∉ v) :
    crawlRun world mp ⟨u :: rest, v, kb⟩
      = (⟨u :: rest, v, kb⟩
            :: (crawlRun world mp (processUrl ⟨rest, v, kb⟩ u (world u))).1,
        (crawlRun world mp (processUrl ⟨rest, v, kb⟩ u (world u))).2) := by
  conv_lhs => rw [crawlRun.eq_def]
  simp [h, hm]

/-- The crawl-state invariant: the visited set respects the page
budget and the knowledge base never outgrows the visited set (an entry
is committed exactly when a URL is marked visited). -/
def crawlInv (mp : Nat) (s : CrawlState) : Prop :=
  s.visited.length ≤ mp ∧ s.kb.length ≤ s.visited.length

/-- The invariant holds at every loop-head state and at the final
state of the crawl, for every world. -/
theorem crawlRun_inv (world : World) (mp : Nat) :
    ∀ st : CrawlState, crawlInv mp st →
      (∀ s ∈ (crawlRun world mp st).1, crawlInv mp s)
        ∧ crawlInv mp (crawlRun world mp st).2 := by
  intro st
  induction st using crawlRun.induct world mp with
  | case1 st hq =>
    intro hinv
    obtain ⟨q, v, kb⟩ := st
    simp only at hq
    subst hq
    rw [crawlRun_nil]
    exact ⟨by simpa using hinv, hinv⟩
  | case2 st u rest hq hv hm tr fin heq ih =>
    intro hinv
    obtain ⟨q, v, kb⟩ := st
    simp only at hq hv hm
    subst hq
    rw [crawlRun_skip _ _ _ _ _ _ hv hm]
    have hrec := ih hinv
    refine ⟨?_, hrec.2⟩
    intro s hs
    rcases List.mem_cons.mp hs with rfl | hs
    · exact hinv
    · exact hrec.1 s hs
  | case3 st u rest hq hv hm tr fin heq ih =>
    intro hinv
    obtain ⟨q, v, kb⟩ := st
    simp only at hq hv hm
    subst hq
    rw [crawlRun_proc _ _ _ _ _ _ hv hm]
    have hinv2 : crawlInv mp (processUrl ⟨rest, v, kb⟩ u (world u)) := by
      rcases hw : world u with p | e | ⟨p, e⟩
      · simp only [processUrl, hw]
        constructor
        · simpa using hv
        · have := hinv.2
          simp only at this ⊢
          simp [List.length_append]
          omega
      · simpa [processUrl, hw] using hinv
      · simp only [processUrl, hw]
        constructor
        · simpa using hv
        · have := hinv.2
          simp only at this ⊢
          simp [List.length_append]
          omega
    have hrec := ih hinv2
    refine ⟨?_, hrec.2⟩
    intro s hs
    rcases List.mem_cons.mp hs with rfl | hs
    · exact hinv
    · exact hrec.1 s hs
  | case4 st u rest hq hv =>
    intro hinv
    obtain ⟨q, v, kb⟩ := st
    simp only at hq hv
    subst hq
    rw [crawlRun_stop _ _ _ _ _ _ hv]
    exact ⟨by simpa using hinv, hinv⟩

/-- C2: for every crawl session (any start URL, any `max_pages`, any
reachable link graph — the crawl loop is a total function, so cyclic
graphs such as a self-referential page terminate), at every loop-head
state of the execution `len(visited) <= max_pages` holds, and the final
knowledge base returned by `start_exploration` has at most `max_pages`
entries. -/
theorem crawl_visited_bounded (world : World) (maxPages : Nat)
    (startUrl : String) :
    (∀ s ∈ (crawlRun world maxPages ⟨[startUrl], [], []⟩).1,
        s.visited.length ≤ maxPages)
      ∧ (startExploration startUrl maxPages world).kb.length ≤ maxPages := by
  have h := crawlRun_inv world maxPages ⟨[startUrl], [], []⟩
    ⟨by simp, by simp⟩
  exact ⟨fun s hs => (h.1 s hs).1, le_trans h.2.2 h.2.1⟩

/-- A concrete single-page environment: the start page explores to an
empty DOM with no elements, the LLM degrades, persistence succeeds. -/
def planC1 : UrlSuccessPlan :=
  { record :=
      { meta_url := "https://example.com/"
        meta_title := ""
        dom_html := ""
        screenshot := ""
        elements := []
        fingerprints := []
        errors := []
        metrics :=
          { exploration_time_seconds := 0
            total_elements_found := 0
            total_errors := 0
            element_statistics := [] } }
    llm := { analysis := .degraded "llm offline", metrics := ⟨0, 0⟩ }
    save := .saved (saveFilename "https://example.com/")
    order := .llmFirst
    elapsed := 0 }

/-- A world in which every URL succeeds with the single-page plan. -/
def worldC1 : World := fun _ => .success planC1

/-- Witness for C2 at a concrete point of a concrete run: the
loop-head state reached after processing the single page of `worldC1`
respects the budget `max_pages = 1`. -/
theorem crawl_visited_bounded_witness :
    (CrawlState.mk [] ["https://example.com/"]
        [("https://example.com/", entryOfPlan planC1)]).visited.length ≤ 1 := by
  have hlinks :
      extractValidLinksS "https://example.com/" "" ["https://example.com/"]
        = [] := by decide
  refine (crawl_visited_bounded worldC1 1 "https://example.com/").1 _ ?_
  rw [crawlRun_proc _ _ _ _ _ _ (by simp) (by simp)]
  simp [worldC1, processUrl, planC1, hlinks, crawlRun_nil]

/-- C1: a crawl session with `max_pages = 1` whose start page yields
no outbound same-domain links produces a knowledge base with exactly
one entry, keyed by the start URL, and an empty final queue. -/
theorem startExploration_single_page (world : World) (start : String)
    (p : UrlSuccessPlan) (hw : world start = .success p)
    (hnolinks : extractValidLinksS start p.record.dom_html [start] = []) :
    (startExploration start 1 world).kb = [(start, entryOfPlan p)]
      ∧ (startExploration start 1 world).queue = [] := by
  unfold startExploration
  rw [crawlRun_proc _ _ _ _ _ _ (by simp) (by simp)]
  simp only [processUrl, hw]
  simp only [List.nil_append]
  rw [hnolinks]
  simp [crawlRun_nil]

/-- Witness for C1: the concrete single-page world. -/
theorem startExploration_single_page_witness :
    (startExploration "https://example.com/" 1 worldC1).kb
        = [("https://example.com/", entryOfPlan planC1)]
      ∧ (startExploration "https://example.com/" 1 worldC1).queue = [] :=
  startExploration_single_page worldC1 "https://example.com/" planC1 rfl
    (by decide)

/-- A world in which every URL's per-URL processing raises (as the
sources stand this is what actually happens: the orchestrator calls
`explorer.explore_in_session`, a method `PageExplorer` does not define,
so every iteration raises `AttributeError` into the `except`). -/
def worldFail : World := fun _ => .failure "AttributeError: explore_in_session"

/-- C4 counterexample: the claim asserts that a URL whose processing
raises a caught exception IS added to the visited set.  In the
concrete session below the start URL's processing raises, and the
final visited set is empty — the URL was not added (the
`visited.add` at line 221 sits inside the `try` and is skipped), so
the crawl would retry it if it were ever re-enqueued. -/
theorem crawl_failure_visited_cex :
    (startExploration "https://example.com/" 3 worldFail).visited = []
      ∧ (startExploration "https://example.com/" 3 worldFail).kb = []
      ∧ "https://example.com/"
          ∉ (startExploration "https://example.com/" 3 worldFail).visited := by
  have h : startExploration "https://example.com/" 3 worldFail
      = ⟨[], [], []⟩ := by
    unfold startExploration
    rw [crawlRun_proc _ _ _ _ _ _ (by simp) (by simp)]
    simp [worldFail, processUrl, crawlRun_nil]
  rw [h]
  exact ⟨rfl, rfl, by simp⟩

/-- C4 (amended): for every URL whose per-URL processing raises an
exception caught at the orchestrator level, the crawl loop continues
with the remaining queue entries, and whether the URL ends up in the
knowledge base and the visited set depends on where the exception was
raised.  An exception raised before the knowledge-base commit (line
220) leaves the URL in neither the knowledge base nor the visited set
(so it may be processed again if it is ever re-enqueued): the state is
unchanged and the final knowledge base and visited set equal those of
the crawl over the remaining queue.  An exception raised during link
discovery (line 224), after the commit and the `visited.add` at lines
220-221, leaves the URL in BOTH the knowledge base and the visited
set, with no newly discovered link enqueued, and the crawl continues
from that committed state. -/
theorem crawl_failure_skips_url (world : World) (mp : Nat) (u : String)
    (rest v : List String) (kb : List (String × KbEntry)) :
    (∀ e, world u = .failure e →
      processUrl ⟨rest, v, kb⟩ u (world u) = ⟨rest, v, kb⟩
        ∧ (crawlRun world mp ⟨u :: rest, v, kb⟩).2.kb
          = (crawlRun world mp ⟨rest, v, kb⟩).2.kb
        ∧ (crawlRun world mp ⟨u :: rest, v, kb⟩).2.visited
          = (crawlRun world mp ⟨rest, v, kb⟩).2.visited)
      ∧ (∀ p e, world u = .discoveryFailure p e →
        processUrl ⟨rest, v, kb⟩ u (world u)
            = ⟨rest, v ++ [u], kb ++ [(u, entryOfPlan p)]⟩
          ∧ (v.length < mp → u ∉ v →
            (crawlRun world mp ⟨u :: rest, v, kb⟩).2
              = (crawlRun world mp
                  ⟨rest, v ++ [u], kb ++ [(u, entryOfPlan p)]⟩).2)) := by
  constructor
  · intro e hw
    have hp : processUrl ⟨rest, v, kb⟩ u (world u) = ⟨rest, v, kb⟩ := by
      rw [hw]
      rfl
    refine ⟨hp, ?_⟩
    by_cases hv : v.length < mp
    · by_cases hm : u ∈ v
      · rw [crawlRun_skip _ _ _ _ _ _ hv hm]
        exact ⟨rfl, rfl⟩
      · rw [crawlRun_proc _ _ _ _ _ _ hv hm, hp]
        exact ⟨rfl, rfl⟩
    · rw [crawlRun_stop _ _ _ _ _ _ hv]
      cases rest with
      | nil => rw [crawlRun_nil]; exact ⟨rfl, rfl⟩
      | cons u2 r2 => rw [crawlRun_stop _ _ _ _ _ _ hv]; exact ⟨rfl, rfl⟩
  · intro p e hw
    have hp : processUrl ⟨rest, v, kb⟩ u (world u)
        = ⟨rest, v ++ [u], kb ++ [(u, entryOfPlan p)]⟩ := by
      rw [hw]
      rfl
    refine ⟨hp, ?_⟩
    intro hv hm
    rw [crawlRun_proc _ _ _ _ _ _ hv hm, hp]

/-- A world in which every URL's processing raises during link
discovery, after the commit: e.g. `urljoin` raising `ValueError` on a
bracketed href inside `extract_valid_links`. -/
def worldDiscFail : World :=
  fun _ => .discoveryFailure planC1 "ValueError: Invalid IPv6 URL"

/-- Witness for C4 (amended): both caught-exception paths at concrete
sessions — a pre-commit failure leaves the state unchanged with the
crawl agreeing with the crawl of the remaining queue, and a discovery
failure leaves the URL committed and visited with the queue
unchanged. -/
theorem crawl_failure_skips_url_witness :
    (processUrl ⟨[], [], []⟩ "https://example.com/"
          (worldFail "https://example.com/") = ⟨[], [], []⟩
        ∧ (crawlRun worldFail 3 ⟨["https://example.com/"], [], []⟩).2.kb
          = (crawlRun worldFail 3 ⟨[], [], []⟩).2.kb
        ∧ (crawlRun worldFail 3 ⟨["https://example.com/"], [], []⟩).2.visited
          = (crawlRun worldFail 3 ⟨[], [], []⟩).2.visited)
      ∧ (processUrl ⟨[], [], []⟩ "https://example.com/"
            (worldDiscFail "https://example.com/")
          = ⟨[], ["https://example.com/"],
              [("https://example.com/", entryOfPlan planC1)]⟩
        ∧ (crawlRun worldDiscFail 3 ⟨["https://example.com/"], [], []⟩).2
          = (crawlRun worldDiscFail 3
              ⟨[], ["https://example.com/"],
                [("https://example.com/", entryOfPlan planC1)]⟩).2) :=
  ⟨(crawl_failure_skips_url worldFail 3 "https://example.com/" [] [] []).1
      "AttributeError: explore_in_session" rfl,
    ((crawl_failure_skips_url worldDiscFail 3 "https://example.com/"
        [] [] []).2 planC1 "ValueError: Invalid IPv6 URL" rfl).1,
    ((crawl_failure_skips_url worldDiscFail 3 "https://example.com/"
        [] [] []).2 planC1 "ValueError: Invalid IPv6 URL" rfl).2
      (by decide) (by simp)⟩

/-- C9: per URL the orchestrator waits on both concurrently launched
futures before proceeding (the barrier `concurrent.futures.wait`), and
the merged knowledge-base entry committed for the URL carries the
results of both tasks — the LLM labeling result and the exploration
record that the persistence task wrote — identically whichever task
settled first and whatever the persistence outcome (success tuple,
failure tuple, or stored exception; the LLM task always settles with a
value because `llm_parse_page` catches every exception). -/
theorem processUrl_barrier_merge (q v : List String)
    (kb : List (String × KbEntry)) (u : String)
    (record : ExplorationRecord) (llm : LlmResultM)
    (save save2 : SaveOutcome) (order order2 : TaskOrder) (elapsed : Int) :
    entryOfPlan ⟨record, llm, save, order, elapsed⟩
        = entryOfPlan ⟨record, llm, save2, order2, elapsed⟩
      ∧ (entryOfPlan ⟨record, llm, save, order, elapsed⟩).llm_analysis
        = llm.analysis
      ∧ (entryOfPlan ⟨record, llm, save, order, elapsed⟩).record = record
      ∧ (processUrl ⟨q, v, kb⟩ u
            (.success ⟨record, llm, save, order, elapsed⟩)).kb
        = kb ++ [(u, entryOfPlan ⟨record, llm, save, order, elapsed⟩)] := by
  refine ⟨?_, ?_, ?_, rfl⟩
  · cases order <;> cases order2 <;> rfl
  · cases order <;> rfl
  · cases order <;> rfl

/-- C10: two executions of one URL's processing that differ only in
the persistence task's outcome (success tuple, failure tuple, or an
exception raised inside `save_state_concurrently`) produce identical
crawl states — identical committed entry, visited set and queue: the
orchestrator never reads the persistence future's result. -/
theorem processUrl_save_noninterference (q v : List String)
    (kb : List (String × KbEntry)) (u : String)
    (record : ExplorationRecord) (llm : LlmResultM) (order : TaskOrder)
    (elapsed : Int) (s1 s2 : SaveOutcome) :
    processUrl ⟨q, v, kb⟩ u (.success ⟨record, llm, s1, order, elapsed⟩)
      = processUrl ⟨q, v, kb⟩ u (.success ⟨record, llm, s2, order, elapsed⟩) := by
  cases order <;> rfl
